import Mathlib

/-
Verification of the classification engine of the karoseri component damage
classification service (`app/services/naive_bayes_service.py`).

The service is a thin wrapper over scikit-learn's `GaussianNB`,
`train_test_split` and metric functions; those library internals are not part
of the repository, so they are modelled here from the specification's explicit
description of them (§4.1-§4.3 of the spec), while the service-level control
flow (validation order, state updates, persistence, error propagation) is
embedded directly from `naive_bayes_service.py`.

Numeric values are embedded as exact rationals.  The Gaussian posterior
computation itself is transcendental (logs and exponentials of rationals), so
the per-class posterior vector is abstracted as a score-function parameter
`ScoreFn`; every claim settled here is independent of the concrete posterior
values and quantifies over that parameter.
-/

namespace KaroseriNB

/-- Fixed class ordering, `NaiveBayesService.CLASSES` (line 33). -/
def CLASSES : List String := ["ringan", "sedang", "berat"]

/-- Number of features, `NaiveBayesService.FEATURE_NAMES` has 7 entries. -/
def nFeatures : Nat := 7

/-- Surrogate for a Python float: a finite rational or a non-finite value. -/
inductive Fl where
  | num (q : ℚ)
  | nan
  | posInf
  | negInf
  deriving DecidableEq, Repr

/-- A float surrogate is finite exactly when it carries a rational. -/
def Fl.isFinite : Fl → Bool
  | .num _ => true
  | _ => false

/-- The rational carried by a finite float surrogate (0 otherwise). -/
def Fl.toRat : Fl → ℚ
  | .num q => q
  | _ => 0

/-- Arithmetic mean of a list of rationals (0 for the empty list). -/
def mean (l : List ℚ) : ℚ := l.sum / (l.length : ℚ)

/-- Population variance (divide by the count, not count−1), spec §4.2. -/
def popVar (l : List ℚ) : ℚ :=
  ((l.map (fun x => (x - mean l) ^ 2)).sum) / (l.length : ℚ)

/-- Column `j` of a row-major matrix of feature vectors. -/
def column (rows : List (List ℚ)) (j : Nat) : List ℚ :=
  rows.map (fun r => r.getD j 0)

/-- Maximum of a list of rationals (0 for the empty list). -/
def maxOf : List ℚ → ℚ
  | [] => 0
  | x :: xs => xs.foldl max x

/-- Modelled from the spec: the maximum per-feature population variance over
the entire training partition, used once per fit for the smoothing epsilon
(spec §4.2); the corresponding sklearn internals are not in the repository. -/
def globalMaxVar (X : List (List ℚ)) : ℚ :=
  maxOf ((List.range nFeatures).map (fun j => popVar (column X j)))

/-- Modelled from the spec: the variance-smoothing epsilon
`ε = max_j(σ²_{·,j}) × 1e-9` (spec §4.2 and §9). -/
def epsFit (X : List (List ℚ)) : ℚ := globalMaxVar X / 1000000000

/-- Feature-vector/label pairs of the samples carrying class label `c`. -/
def classPairs (X : List (List ℚ)) (y : List String) (c : String) :
    List (List ℚ × String) :=
  (X.zip y).filter (fun p => decide (p.2 = c))

/-- Feature vectors of the samples carrying class label `c`. -/
def classRows (X : List (List ℚ)) (y : List String) (c : String) :
    List (List ℚ) :=
  (classPairs X y c).map (fun p => p.1)

/-- The class labels present in `y`, in the fixed class ordering. -/
def presentClasses (y : List String) : List String :=
  CLASSES.filter (fun c => decide (c ∈ y))

/-- Errors of the fit step (spec §4.2). -/
inductive FitError where
  | insufficientData
  deriving DecidableEq, Repr

/-- A fitted Gaussian Naive Bayes model: class ordering, class priors,
per-class per-feature means (`theta_`) and variances (`var_`). -/
structure FittedModel where
  classes : List String
  priors : List ℚ
  theta : List (List ℚ)
  vars : List (List ℚ)
  deriving DecidableEq, Repr

/-- A placeholder fitted model, used only as a `getD` default. -/
def dummyModel : FittedModel := ⟨[], [], [], []⟩

/-- Modelled from the spec: `GaussianNB.fit` (spec §4.2); the sklearn
implementation is not in the repository.  For each present class: prior =
class count / N, per-feature mean and population variance, and the variance
floor `σ² = max(σ², ε)` with `ε` computed once over the whole partition.
Fails with `InsufficientDataError` when fewer than 2 classes are present or a
present class has zero samples. -/
def fit (X : List (List ℚ)) (y : List String) : Except FitError FittedModel :=
  let cs := presentClasses y
  if cs.length < 2 ∨ cs.any (fun c => y.count c = 0) then
    .error .insufficientData
  else
    .ok { classes := cs
          priors := cs.map (fun c => (y.count c : ℚ) / (y.length : ℚ))
          theta := cs.map (fun c =>
            (List.range nFeatures).map (fun j => mean (column (classRows X y c) j)))
          vars := cs.map (fun c =>
            (List.range nFeatures).map (fun j =>
              max (popVar (column (classRows X y c) j)) (epsFit X))) }

/-- Modelled from the spec: per-class test-sample count of the stratified
deterministic split (spec §4.1: `round(count·f)` and at least 1 per present
class); sklearn's seeded `train_test_split` is not in the repository. -/
def testCount (n : Nat) (f : ℚ) : Nat := max 1 (round ((n : ℚ) * f)).toNat

/-- Modelled from the spec: deterministic stratified train/test split
(spec §4.1).  Per present class, the first `testCount` samples of that class
(in input order) form the test subset and the rest the train subset.  Returns
`((X_train, y_train), (X_test, y_test))`. -/
def splitData (X : List (List ℚ)) (y : List String) (f : ℚ) :
    (List (List ℚ) × List String) × (List (List ℚ) × List String) :=
  let buckets := (presentClasses y).map (fun c =>
    (classPairs X y c, testCount (classPairs X y c).length f))
  let trainPairs := (buckets.map (fun b => b.1.drop b.2)).flatten
  let testPairs := (buckets.map (fun b => b.1.take b.2)).flatten
  ((trainPairs.map (fun p => p.1), trainPairs.map (fun p => p.2)),
   (testPairs.map (fun p => p.1), testPairs.map (fun p => p.2)))

/-- Abstract per-class posterior computation: given a fitted model and a
feature vector, the posterior probability of each class of `m.classes`, in
order.  The concrete value is the transcendental softmax-normalised Gaussian
log-joint of spec §4.2; the claims settled here hold for every score
function, so it is kept as a parameter. -/
def ScoreFn : Type := FittedModel → List ℚ → List ℚ

/-- `np.argmax` as described by its contract: the first index attaining the
maximum of the list. -/
def argmaxIdx (l : List ℚ) : Nat := l.findIdx (fun x => decide (maxOf l ≤ x))

/-- The class selected from a posterior vector: the class at the first index
attaining the maximum posterior (spec §4.2 tie-break policy). -/
def selectPrediction (classes : List String) (post : List ℚ) : String :=
  classes.getD (argmaxIdx post) ""

/-- The label predicted by a fitted model for one feature vector. -/
def predictLabel (score : ScoreFn) (fm : FittedModel) (x : List ℚ) : String :=
  selectPrediction fm.classes (score fm x)

/-- Confusion matrix over true/predicted label pairs, rows and columns in the
fixed class ordering (spec §4.3). -/
def confusionPairs (L : List (String × String)) : List (List Nat) :=
  CLASSES.map (fun i => CLASSES.map (fun j =>
    L.countP (fun p => decide (p.1 = i ∧ p.2 = j))))

/-- Modelled from the spec: `confusion_matrix(y_test, y_pred, labels=CLASSES)`
(spec §4.3); sklearn's implementation is not in the repository. -/
def confusionOf (yTrue yPred : List String) : List (List Nat) :=
  confusionPairs (yTrue.zip yPred)

/-- Sum of all entries of a confusion matrix. -/
def cmSum (cm : List (List Nat)) : Nat := (cm.map (fun r => r.sum)).sum

/-- Trace (sum of diagonal entries) of a confusion matrix. -/
def cmTrace (cm : List (List Nat)) : Nat :=
  ((List.range cm.length).map (fun i => (cm.getD i []).getD i 0)).sum

/-- Number of index positions where the true and predicted labels agree. -/
def matchCount (yTrue yPred : List String) : Nat :=
  (yTrue.zip yPred).countP (fun p => decide (p.1 = p.2))

/-- Modelled from the spec: `accuracy_score` = fraction of test samples whose
predicted label equals the true label (spec §4.3); division by zero yields 0
(rational division by zero is 0). -/
def accuracyOf (yTrue yPred : List String) : ℚ :=
  (matchCount yTrue yPred : ℚ) / (yTrue.length : ℚ)

/-- Division with the spec §4.3 convention that division by zero yields 0. -/
def safeDiv (a b : ℚ) : ℚ := if b = 0 then 0 else a / b

/-- Column sum `Σ_i M[i][j]` of a confusion matrix. -/
def colSum (cm : List (List Nat)) (j : Nat) : Nat :=
  (cm.map (fun r => r.getD j 0)).sum

/-- Row sum `Σ_j M[i][j]` (the support of class `i`), spec §4.3. -/
def rowSum (cm : List (List Nat)) (i : Nat) : Nat := (cm.getD i []).sum

/-- Modelled from the spec: per-class precision `M[c][c] / Σ_i M[i][c]`,
0 on zero denominator (spec §4.3). -/
def precisionAt (cm : List (List Nat)) (i : Nat) : ℚ :=
  safeDiv (((cm.getD i []).getD i 0 : ℚ)) ((colSum cm i : ℚ))

/-- Modelled from the spec: per-class recall `M[c][c] / Σ_j M[c][j]`,
0 on zero denominator (spec §4.3). -/
def recallAt (cm : List (List Nat)) (i : Nat) : ℚ :=
  safeDiv (((cm.getD i []).getD i 0 : ℚ)) ((rowSum cm i : ℚ))

/-- Modelled from the spec: per-class F1, harmonic mean of precision and
recall, 0 when both are 0 (spec §4.3). -/
def f1At (cm : List (List Nat)) (i : Nat) : ℚ :=
  if precisionAt cm i + recallAt cm i = 0 then 0
  else 2 * precisionAt cm i * recallAt cm i / (precisionAt cm i + recallAt cm i)

/-- Modelled from the spec: support-weighted aggregate
`Σ_c (support_c/total) × metric_c` (spec §4.3). -/
def weightedOf (cm : List (List Nat)) (metric : Nat → ℚ) : ℚ :=
  ((List.range CLASSES.length).map (fun i =>
    safeDiv ((rowSum cm i : ℚ)) ((cmSum cm : ℚ)) * metric i)).sum

/-- The in-memory object held by `self.model`: either a freshly constructed,
not yet fitted `GaussianNB()` (line 116 of the service before line 117 runs)
or a fitted model. -/
inductive ModelObj where
  | unfitted
  | fitted (fm : FittedModel)
  deriving DecidableEq, Repr

/-- The mutable service state: `self.model`, `self.is_trained`,
`self.last_trained_at` (timestamps as abstract naturals) and
`self.training_samples` (`NaiveBayesService.__init__`, lines 46-51). -/
structure NBState where
  model : Option ModelObj
  is_trained : Bool
  last_trained_at : Option Nat
  training_samples : Nat
  deriving DecidableEq, Repr

/-- The state of a fresh service with no persisted snapshot. -/
def freshState : NBState :=
  { model := none, is_trained := false, last_trained_at := none
    training_samples := 0 }

/-- Errors raised by `train` (`ValueError` for too little data, the fit's
failure, and a persistence failure re-raised by `_save_model`, line 82). -/
inductive TrainError where
  | insufficientData
  | saveFailed
  deriving DecidableEq, Repr

/-- The dictionary returned by a successful `train` (lines 144-155),
restricted to its numeric content. -/
structure TrainResult where
  training_samples : Nat
  test_samples : Nat
  accuracy : ℚ
  precisionW : ℚ
  recallW : ℚ
  f1W : ℚ
  confusion : List (List Nat)
  deriving DecidableEq, Repr

/-- A placeholder train result, used only as a match default. -/
def dummyResult : TrainResult := ⟨0, 0, 0, 0, 0, 0, []⟩

/-- The payload of a successful result (placeholder on error). -/
def okOr (x : Except TrainError TrainResult) : TrainResult :=
  match x with
  | .ok r => r
  | .error _ => dummyResult

/-- The payload of a successful fit (placeholder on error). -/
def fitOk (x : Except FitError FittedModel) : FittedModel :=
  match x with
  | .ok m => m
  | .error _ => dummyModel

/-- `NaiveBayesService.train` (lines 84-155): reject fewer than 10 samples
before any other work (line 103), split (line 111), fit (lines 116-117),
predict over the test fold and compute metrics (lines 119-132), update the
in-memory state (lines 134-137), then persist (line 140).  `saveOk` models
whether the disk write succeeds; `_save_model` re-raises its exception
(line 82) and `train` does not catch it, so a failed save makes the call
return an error even though the in-memory state was already updated. -/
def train (score : ScoreFn) (st : NBState) (X : List (List ℚ)) (y : List String)
    (testSize : ℚ) (now : Nat) (saveOk : Bool) :
    Except TrainError TrainResult × NBState :=
  if X.length < 10 then (.error .insufficientData, st)
  else
    let s := splitData X y testSize
    match fit s.1.1 s.1.2 with
    | .error _ => (.error .insufficientData, { st with model := some .unfitted })
    | .ok fm =>
      let yPred := s.2.1.map (fun x => predictLabel score fm x)
      let cm := confusionOf s.2.2 yPred
      let res : TrainResult :=
        { training_samples := s.1.1.length
          test_samples := s.2.1.length
          accuracy := accuracyOf s.2.2 yPred
          precisionW := weightedOf cm (precisionAt cm)
          recallW := weightedOf cm (recallAt cm)
          f1W := weightedOf cm (f1At cm)
          confusion := cm }
      let st2 : NBState :=
        { model := some (.fitted fm), is_trained := true
          last_trained_at := some now, training_samples := s.1.1.length }
      if saveOk then (.ok res, st2) else (.error .saveFailed, st2)

/-- The service state right after `self.model = GaussianNB()` (line 116) and
before `self.model.fit(...)` (line 117) completes: the shared model reference
already holds the fresh, unfitted object. -/
def midFitState (st : NBState) : NBState := { st with model := some .unfitted }

/-- The sequence of shared-state snapshots observable during one `train`
call, one entry per mutation of the service's fields: initial state, after
the assignment `self.model = GaussianNB()` (line 116), after the in-place fit
(line 117), after `self.is_trained = True` (line 135), after
`self.last_trained_at = ...` (line 136), and after
`self.training_samples = ...` (line 137). -/
def trainTrace (st : NBState) (X : List (List ℚ))
    (y : List String) (testSize : ℚ) (now : Nat) : List NBState :=
  if X.length < 10 then [st]
  else
    let s := splitData X y testSize
    match fit s.1.1 s.1.2 with
    | .error _ => [st, midFitState st]
    | .ok fm =>
      [st, midFitState st,
       { st with model := some (.fitted fm) },
       { st with model := some (.fitted fm), is_trained := true },
       { st with model := some (.fitted fm), is_trained := true
                 last_trained_at := some now },
       { model := some (.fitted fm), is_trained := true
         last_trained_at := some now, training_samples := s.1.1.length }]

/-- Errors raised by `predict`: the not-trained and invalid-length
`ValueError`s of lines 167-171, the `InvalidInputError` of the library's
non-finite input check (spec §4.2), and the library's `NotFittedError` when
the installed object was never fitted. -/
inductive PredictError where
  | notTrained
  | invalidInput
  | notFitted
  deriving DecidableEq, Repr

/-- All feature values are finite. -/
def allFinite (features : List Fl) : Bool := features.all Fl.isFinite

/-- The validation and dispatch of `NaiveBayesService.predict`
(lines 157-178): first the trained-model check (line 167), then the length
check (line 170), then the delegation to the installed model, which fails on
an unfitted object and rejects non-finite inputs (the finiteness check is
modelled from spec §4.2; it lives in the library, not in the repository).
On success, returns the fitted model and the rational feature vector the
inference proceeds with. -/
def predictResult (st : NBState) (features : List Fl) :
    Except PredictError (FittedModel × List ℚ) :=
  if !st.is_trained || st.model.isNone then .error .notTrained
  else if features.length ≠ 7 then .error .invalidInput
  else
    match st.model with
    | none => .error .notTrained
    | some .unfitted => .error .notFitted
    | some (.fitted fm) =>
      if allFinite features then .ok (fm, features.map Fl.toRat)
      else .error .invalidInput

/-- Full predict: validation followed by class selection. -/
def predictOut (score : ScoreFn) (st : NBState) (features : List Fl) :
    Except PredictError String :=
  (predictResult st features).map (fun p => selectPrediction p.1.classes (score p.1 p.2))

deriving instance DecidableEq for Except

/-- Concrete training partition used in concrete instantiations: 10 samples
whose 7 features are all the constant 1 (every feature is inside its declared
domain from spec §3). -/
def sampleX : List (List ℚ) := List.replicate 10 (List.replicate 7 1)

/-- Concrete labels for `sampleX`: five `ringan` then five `sedang`. -/
def sampleY : List String := List.replicate 5 "ringan" ++ List.replicate 5 "sedang"

/-- A concrete score function assigning every class the posterior 0; its
output length always matches the model's class count. -/
def constScore : ScoreFn := fun fm _ => fm.classes.map (fun _ => 0)

/-- A concrete valid 7-element finite feature vector. -/
def sampleFeatures : List Fl := List.replicate 7 (Fl.num 1)

/-- The model `fit` produces on the sample data (and on its train split):
both classes with prior 1/2, all means 1, all variances 0 because every
feature is constant over the whole partition, which makes the smoothing
epsilon 0 as well. -/
def sampleModel : FittedModel :=
  { classes := ["ringan", "sedang"], priors := [1/2, 1/2]
    theta := [List.replicate 7 1, List.replicate 7 1]
    vars := [List.replicate 7 0, List.replicate 7 0] }

/-- A concrete service state holding the model fitted on the sample data. -/
def sampleTrainedState : NBState :=
  { model := some (.fitted sampleModel), is_trained := true
    last_trained_at := some 3, training_samples := 10 }

/-- A 9-sample training input (one sample short of the minimum). -/
def sampleX9 : List (List ℚ) := List.replicate 9 (List.replicate 7 1)

/-- Labels for `sampleX9`. -/
def sampleY9 : List String := List.replicate 9 "ringan"

/-- A 10-sample label list with a single distinct class. -/
def sampleYone : List String := List.replicate 10 "ringan"

/-- A 7-element feature vector containing a non-finite value. -/
def nanFeatures : List Fl := Fl.nan :: List.replicate 6 (Fl.num 1)

/-- A 6-element feature vector (wrong length). -/
def shortFeatures : List Fl := List.replicate 6 (Fl.num 1)

theorem ringan_ne_sedang : ("ringan" = "sedang") = False := by decide

theorem ringan_ne_berat : ("ringan" = "berat") = False := by decide

theorem sedang_ne_ringan : ("sedang" = "ringan") = False := by decide

theorem sedang_ne_berat : ("sedang" = "berat") = False := by decide

theorem berat_ne_ringan : ("berat" = "ringan") = False := by decide

theorem berat_ne_sedang : ("berat" = "sedang") = False := by decide

theorem okOr_of_isOk (x : Except TrainError TrainResult) (h : x.isOk = true) :
    x = .ok (okOr x) := by
  cases x with
  | ok r => rfl
  | error e => simp [Except.isOk, Except.toBool] at h

theorem testCount_five : testCount 5 (1/5) = 1 := by
  have h : round (((5:ℕ):ℚ) * (1/5)) = 1 := by norm_num
  unfold testCount
  rw [h]
  rfl

set_option maxHeartbeats 2000000 in
theorem fit_sample_eval : fit sampleX sampleY = .ok sampleModel := by
  norm_num [fit, sampleModel, sampleX, sampleY, presentClasses, CLASSES,
        classRows, classPairs, column, mean, popVar, epsFit, globalMaxVar,
        maxOf, nFeatures, List.range_succ, List.replicate, List.filter_cons,
        List.count_cons, List.mem_cons, List.count_nil, List.filter_nil,
        ringan_ne_sedang, ringan_ne_berat, sedang_ne_ringan, sedang_ne_berat,
        berat_ne_ringan, berat_ne_sedang]

theorem testCount_five_inv : testCount 5 ((5:ℚ)⁻¹) = 1 := by
  rw [← one_div]
  exact testCount_five

set_option maxHeartbeats 2000000 in
theorem split_sample_eval : splitData sampleX sampleY (1/5) =
    ((List.replicate 8 (List.replicate 7 (1:ℚ)),
      List.replicate 4 "ringan" ++ List.replicate 4 "sedang"),
     (List.replicate 2 (List.replicate 7 (1:ℚ)), ["ringan", "sedang"])) := by
  simp [splitData, sampleX, sampleY, presentClasses, CLASSES, classPairs,
        testCount_five, testCount_five_inv, List.replicate, List.filter_cons,
        List.mem_cons,
        ringan_ne_sedang, ringan_ne_berat, sedang_ne_ringan, sedang_ne_berat,
        berat_ne_ringan, berat_ne_sedang]

theorem getD_of_lt {α : Type} (l : List α) (n : Nat) (d : α) (h : n < l.length) :
    l.getD n d = l.get ⟨n, h⟩ := by
  simp [List.getD_eq_getElem?_getD, List.getElem?_eq_getElem h]

theorem le_foldl_max (a : ℚ) (l : List ℚ) : a ≤ l.foldl max a := by
  induction l generalizing a with
  | nil => exact le_refl a
  | cons b l ih => exact le_trans (le_max_left a b) (ih (max a b))

theorem mem_le_foldl_max (x a : ℚ) (l : List ℚ) (hx : x ∈ l) : x ≤ l.foldl max a := by
  induction l generalizing a with
  | nil => cases hx
  | cons b l ih =>
    rcases List.mem_cons.mp hx with h | h
    · subst h
      exact le_trans (le_max_right a x) (le_foldl_max (max a x) l)
    · exact ih (max a b) h

theorem foldl_max_mem (a : ℚ) (l : List ℚ) : l.foldl max a = a ∨ l.foldl max a ∈ l := by
  induction l generalizing a with
  | nil => exact Or.inl rfl
  | cons b l ih =>
    rcases ih (max a b) with h | h
    · rcases max_choice a b with hm | hm
      · exact Or.inl (by rw [List.foldl_cons, h, hm])
      · exact Or.inr (by rw [List.foldl_cons, h, hm]; exact List.mem_cons_self b l)
    · exact Or.inr (List.mem_cons_of_mem b h)

theorem le_maxOf (l : List ℚ) (x : ℚ) (hx : x ∈ l) : x ≤ maxOf l := by
  cases l with
  | nil => cases hx
  | cons b l =>
    rcases List.mem_cons.mp hx with h | h
    · subst h
      exact le_foldl_max x l
    · exact mem_le_foldl_max x b l h

theorem maxOf_mem (l : List ℚ) (h : l ≠ []) : maxOf l ∈ l := by
  cases l with
  | nil => exact absurd rfl h
  | cons b l =>
    rcases foldl_max_mem b l with hm | hm
    · rw [maxOf, hm]
      exact List.mem_cons_self b l
    · exact List.mem_cons_of_mem b hm

theorem argmaxIdx_lt (l : List ℚ) (h : l ≠ []) : argmaxIdx l < l.length :=
  List.findIdx_lt_length_of_exists ⟨maxOf l, maxOf_mem l h, by simp⟩

theorem argmaxIdx_attains (l : List ℚ) (h : l ≠ []) :
    l.getD (argmaxIdx l) 0 = maxOf l := by
  have hlt : argmaxIdx l < l.length := argmaxIdx_lt l h
  have hp := List.findIdx_getElem (w := hlt)
  rw [getD_of_lt l (argmaxIdx l) 0 hlt]
  exact le_antisymm (le_maxOf l _ (l.get_mem _ hlt)) (by simpa using hp)

theorem argmaxIdx_le_of_attains (l : List ℚ) (k : Nat) (hk : k < l.length)
    (h : l.getD k 0 = maxOf l) : argmaxIdx l ≤ k := by
  by_contra hc
  have hlt : k < argmaxIdx l := Nat.lt_of_not_le hc
  have hthis := List.not_of_lt_findIdx hlt
  rw [getD_of_lt l k 0 hk] at h
  simp [List.get_eq_getElem] at h
  simp [h] at hthis

theorem selectPrediction_mem (classes : List String) (post : List ℚ)
    (hlen : post.length = classes.length) (hne : post ≠ []) :
    selectPrediction classes post ∈ classes := by
  have hlt : argmaxIdx post < classes.length := hlen ▸ argmaxIdx_lt post hne
  rw [selectPrediction, getD_of_lt classes _ "" hlt]
  exact classes.get_mem _ hlt

set_option maxHeartbeats 2000000 in
theorem fit_trainpart_eval :
    fit (List.replicate 8 (List.replicate 7 (1:ℚ)))
      (List.replicate 4 "ringan" ++ List.replicate 4 "sedang") = .ok sampleModel := by
  norm_num [fit, sampleModel, presentClasses, CLASSES,
        classRows, classPairs, column, mean, popVar, epsFit, globalMaxVar,
        maxOf, nFeatures, List.range_succ, List.replicate, List.filter_cons,
        List.count_cons, List.mem_cons, List.count_nil, List.filter_nil,
        ringan_ne_sedang, ringan_ne_berat, sedang_ne_ringan, sedang_ne_berat,
        berat_ne_ringan, berat_ne_sedang]

theorem presentClasses_subset (y : List String) (c : String)
    (h : c ∈ presentClasses y) : c ∈ CLASSES :=
  (List.mem_filter.mp h).1

theorem presentClasses_sublist (y : List String) :
    (presentClasses y).Sublist CLASSES :=
  List.filter_sublist CLASSES

theorem fit_ok_spec (X : List (List ℚ)) (y : List String) (m : FittedModel)
    (h : fit X y = .ok m) :
    m.classes = presentClasses y ∧ 2 ≤ (presentClasses y).length ∧
    m.priors = (presentClasses y).map (fun c => (y.count c : ℚ) / (y.length : ℚ)) ∧
    m.vars = (presentClasses y).map (fun c =>
      (List.range nFeatures).map (fun j =>
        max (popVar (column (classRows X y c) j)) (epsFit X))) := by
  simp only [fit] at h
  split at h
  · exact Except.noConfusion h
  next hg =>
    have h2 := Except.ok.inj h
    subst h2
    refine ⟨rfl, ?_, rfl, rfl⟩
    exact Nat.le_of_not_lt (not_or.mp hg).1

theorem split_test_label_mem (X : List (List ℚ)) (y : List String) (f : ℚ)
    (c : String) (h : c ∈ (splitData X y f).2.2) : c ∈ CLASSES := by
  simp only [splitData, List.mem_map, List.mem_flatten] at h
  obtain ⟨p, ⟨l, ⟨b, ⟨c2, hc2, hb⟩, hl⟩, hpl⟩, hpc⟩ := h
  subst hb
  subst hl
  have hp2 : p ∈ classPairs X y c2 := List.mem_of_mem_take hpl
  have hf := (List.mem_filter.mp hp2).2
  have hpc2 : p.2 = c2 := by simpa using hf
  rw [← hpc, hpc2]
  exact presentClasses_subset y c2 hc2

theorem split_test_lengths (X : List (List ℚ)) (y : List String) (f : ℚ) :
    (splitData X y f).2.1.length = (splitData X y f).2.2.length := by
  simp only [splitData]
  rw [List.length_map, List.length_map]

theorem sampleX_len : sampleX.length = 10 := by simp [sampleX]

theorem train_sample_snd (st : NBState) (saveOk : Bool) :
    (train constScore st sampleX sampleY (1/5) 7 saveOk).2 =
    { model := some (.fitted sampleModel), is_trained := true
      last_trained_at := some 7, training_samples := 8 } := by
  have hlen : ¬ (sampleX.length < 10) := by rw [sampleX_len]; omega
  unfold train
  rw [if_neg hlen, split_sample_eval]
  dsimp only
  rw [fit_trainpart_eval]
  cases saveOk <;> simp [List.length_replicate]

theorem train_sample_fst_ok (st : NBState) :
    (train constScore st sampleX sampleY (1/5) 7 true).1.isOk = true := by
  have hlen : ¬ (sampleX.length < 10) := by rw [sampleX_len]; omega
  unfold train
  rw [if_neg hlen, split_sample_eval]
  dsimp only
  rw [fit_trainpart_eval]
  simp [Except.isOk, Except.toBool]

theorem train_sample_fst_saveFail (st : NBState) :
    (train constScore st sampleX sampleY (1/5) 7 false).1 = .error .saveFailed := by
  have hlen : ¬ (sampleX.length < 10) := by rw [sampleX_len]; omega
  unfold train
  rw [if_neg hlen, split_sample_eval]
  dsimp only
  rw [fit_trainpart_eval]
  simp

theorem cmSum_explicit (L : List (String × String)) : cmSum (confusionPairs L) =
    L.countP (fun p => decide (p.1 = "ringan") && decide (p.2 = "ringan")) +
    L.countP (fun p => decide (p.1 = "ringan") && decide (p.2 = "sedang")) +
    L.countP (fun p => decide (p.1 = "ringan") && decide (p.2 = "berat")) +
    L.countP (fun p => decide (p.1 = "sedang") && decide (p.2 = "ringan")) +
    L.countP (fun p => decide (p.1 = "sedang") && decide (p.2 = "sedang")) +
    L.countP (fun p => decide (p.1 = "sedang") && decide (p.2 = "berat")) +
    L.countP (fun p => decide (p.1 = "berat") && decide (p.2 = "ringan")) +
    L.countP (fun p => decide (p.1 = "berat") && decide (p.2 = "sedang")) +
    L.countP (fun p => decide (p.1 = "berat") && decide (p.2 = "berat")) := by
  simp [cmSum, confusionPairs, CLASSES]
  omega

theorem cmTrace_explicit (L : List (String × String)) : cmTrace (confusionPairs L) =
    L.countP (fun p => decide (p.1 = "ringan") && decide (p.2 = "ringan")) +
    L.countP (fun p => decide (p.1 = "sedang") && decide (p.2 = "sedang")) +
    L.countP (fun p => decide (p.1 = "berat") && decide (p.2 = "berat")) := by
  simp [cmTrace, confusionPairs, CLASSES, List.range_succ]
  omega



theorem cmSum_confusionPairs (L : List (String × String)) :
    (∀ p ∈ L, p.1 ∈ CLASSES ∧ p.2 ∈ CLASSES) →
    cmSum (confusionPairs L) = L.length := by
  induction L with
  | nil => intro _; rw [cmSum_explicit]; simp
  | cons q L ih =>
    intro h
    obtain ⟨h1, h2⟩ := h q (List.mem_cons_self q L)
    have ih2 := ih (fun r hr => h r (List.mem_cons_of_mem q hr))
    rw [cmSum_explicit] at ih2 ⊢
    simp only [List.countP_cons, List.length_cons]
    simp only [CLASSES, List.mem_cons, List.not_mem_nil, or_false] at h1 h2
    rcases h1 with e1 | e1 | e1 <;> rcases h2 with e2 | e2 | e2 <;>
      simp only [e1, e2, ringan_ne_sedang, ringan_ne_berat, sedang_ne_ringan,
        sedang_ne_berat, berat_ne_ringan, berat_ne_sedang, eq_self_iff_true,
        decide_True, decide_False, Bool.and_true, Bool.and_false,
        Bool.true_and, Bool.false_and, Bool.false_eq_true, if_true, if_false] <;>
      omega

theorem cmTrace_matchCount (L : List (String × String)) :
    (∀ p ∈ L, p.1 ∈ CLASSES ∧ p.2 ∈ CLASSES) →
    cmTrace (confusionPairs L) = L.countP (fun p => decide (p.1 = p.2)) := by
  induction L with
  | nil => intro _; rw [cmTrace_explicit]; simp
  | cons q L ih =>
    intro h
    obtain ⟨h1, h2⟩ := h q (List.mem_cons_self q L)
    have ih2 := ih (fun r hr => h r (List.mem_cons_of_mem q hr))
    rw [cmTrace_explicit] at ih2 ⊢
    simp only [List.countP_cons]
    simp only [CLASSES, List.mem_cons, List.not_mem_nil, or_false] at h1 h2
    rcases h1 with e1 | e1 | e1 <;> rcases h2 with e2 | e2 | e2 <;>
      simp only [e1, e2, ringan_ne_sedang, ringan_ne_berat, sedang_ne_ringan,
        sedang_ne_berat, berat_ne_ringan, berat_ne_sedang, eq_self_iff_true,
        decide_True, decide_False, Bool.and_true, Bool.and_false,
        Bool.true_and, Bool.false_and, Bool.false_eq_true, if_true, if_false] <;>
      omega

theorem popVar_nonneg (l : List ℚ) : 0 ≤ popVar l := by
  apply div_nonneg
  · apply List.sum_nonneg
    intro x hx
    obtain ⟨a, _, ha⟩ := List.mem_map.mp hx
    rw [← ha]
    exact sq_nonneg _
  · exact Nat.cast_nonneg _

theorem midFit_mem_trace (st : NBState) (X : List (List ℚ)) (y : List String)
    (ts : ℚ) (now : Nat) (h10 : 10 ≤ X.length) :
    midFitState st ∈ trainTrace st X y ts now := by
  unfold trainTrace
  rw [if_neg (Nat.not_lt.mpr h10)]
  rcases hf : fit (splitData X y ts).1.1 (splitData X y ts).1.2 with e | fm <;>
    simp [hf]

/-- C6: a `train` call with fewer than 10 samples fails with
`InsufficientDataError` before any fitting occurs (the observable state trace
is just the initial state), and the previously installed model, timestamp and
sample count are unchanged. -/
theorem c6_min_samples_guard (score : ScoreFn) (st : NBState) (X : List (List ℚ))
    (y : List String) (ts : ℚ) (now : Nat) (saveOk : Bool)
    (h : X.length < 10) :
    train score st X y ts now saveOk = (.error .insufficientData, st) ∧
    trainTrace st X y ts now = [st] := by
  constructor
  · unfold train
    rw [if_pos h]
  · unfold trainTrace
    rw [if_pos h]

theorem c6_witness :
    train constScore sampleTrainedState sampleX9 sampleY9 (1/5) 7 true =
      (.error .insufficientData, sampleTrainedState) ∧
    trainTrace sampleTrainedState sampleX9 sampleY9 (1/5) 7 = [sampleTrainedState] :=
  c6_min_samples_guard constScore sampleTrainedState sampleX9 sampleY9 (1/5) 7 true
    (by simp [sampleX9])

/-- C10: `predict` checks the trained-model precondition before validating
the feature vector: whenever `is_trained` is false or no model object is
installed, it fails with `NotTrainedError` for every input, of any length. -/
theorem c10_not_trained_first (st : NBState) (features : List Fl)
    (h : st.is_trained = false ∨ st.model = none) :
    predictResult st features = .error .notTrained := by
  rcases h with h | h <;> simp [predictResult, h]

theorem c10_witness :
    predictResult freshState shortFeatures = .error .notTrained :=
  c10_not_trained_first freshState shortFeatures (Or.inl rfl)

/-- C4: with a fitted model installed, `predict` fails with
`InvalidInputError` exactly when the feature vector does not have length 7 or
contains a non-finite value. -/
theorem c4_invalid_input_iff (st : NBState) (fm : FittedModel) (features : List Fl)
    (hst : st.model = some (.fitted fm)) (htr : st.is_trained = true) :
    predictResult st features = .error .invalidInput ↔
      (features.length ≠ 7 ∨ ∃ v ∈ features, v.isFinite = false) := by
  unfold predictResult
  rw [hst, htr]
  by_cases hl : features.length = 7
  · by_cases ha : allFinite features = true
    · simp [hl, ha]
      intro v hv
      exact List.all_eq_true.mp ha v hv
    · have hfalse : allFinite features = false := Bool.eq_false_iff.mpr ha
      obtain ⟨v, hv, hfin⟩ := List.all_eq_false.mp hfalse
      simp [hl, ha]
      exact ⟨v, hv, Bool.eq_false_iff.mpr hfin⟩
  · simp [hl]

theorem c4_witness :
    predictResult sampleTrainedState nanFeatures = .error .invalidInput :=
  (c4_invalid_input_iff sampleTrainedState sampleModel nanFeatures rfl rfl).mpr
    (Or.inr ⟨Fl.nan, by simp [nanFeatures], rfl⟩)



/-- C5: the fit fails with `InsufficientDataError` whenever the training
partition has fewer than 2 distinct class labels, or some present class has
zero samples; no model is produced (the result is an error, not a model). -/
theorem c5_fit_insufficient (X : List (List ℚ)) (y : List String)
    (h : y.dedup.length < 2 ∨ ∃ c ∈ presentClasses y, y.count c = 0) :
    fit X y = .error .insufficientData := by
  have hsub : presentClasses y ⊆ y.dedup := by
    intro c hc
    exact List.mem_dedup.mpr (by simpa using (List.mem_filter.mp hc).2)
  have hnodup : (presentClasses y).Nodup :=
    (presentClasses_sublist y).nodup (by decide)
  have hle : (presentClasses y).length ≤ y.dedup.length :=
    (hnodup.subperm hsub).length_le
  unfold fit
  rw [if_pos ?_]
  rcases h with h | ⟨c, hc, hcount⟩
  · exact Or.inl (Nat.lt_of_le_of_lt hle h)
  · exact Or.inr (List.any_eq_true.mpr ⟨c, hc, by simpa using hcount⟩)

theorem c5_witness : fit sampleX sampleYone = .error .insufficientData :=
  c5_fit_insufficient sampleX sampleYone (Or.inl (by decide))

/-- C8: the training pipeline is deterministic: the split is a function of the
inputs, and two `train` calls with identical features, labels and test
fraction produce identical results (confusion matrix, accuracy, weighted
precision/recall/F1), regardless of the prior in-memory state. -/
theorem c8_deterministic (score : ScoreFn) (X : List (List ℚ)) (y : List String)
    (ts : ℚ) (now : Nat) (saveOk : Bool) (st1 st2 : NBState) :
    splitData X y ts = splitData X y ts ∧
    (train score st1 X y ts now saveOk).1 = (train score st2 X y ts now saveOk).1 := by
  refine ⟨rfl, ?_⟩
  unfold train
  by_cases h : X.length < 10
  · rw [if_pos h, if_pos h]
  · rw [if_neg h, if_neg h]
    dsimp only
    rcases hf : fit (splitData X y ts).1.1 (splitData X y ts).1.2 with e | fm <;>
      rfl

/-- C2 (amended): if the fit succeeds but persisting the snapshot fails, the
in-memory state still holds the newly trained model (it is exactly the state
a successful save would leave), but the `train` call itself returns the
persistence error instead of the evaluation report: `_save_model` re-raises
(line 82) and `train` does not catch (line 140). -/
theorem c2_persistence_failure (score : ScoreFn) (st : NBState)
    (X : List (List ℚ)) (y : List String) (ts : ℚ) (now : Nat) (res : TrainResult)
    (h : (train score st X y ts now true).1 = .ok res) :
    (train score st X y ts now false).1 = .error .saveFailed ∧
    (train score st X y ts now false).2 = (train score st X y ts now true).2 ∧
    (train score st X y ts now false).2.is_trained = true ∧
    (∃ fm, (train score st X y ts now false).2.model = some (.fitted fm)) := by
  unfold train at h ⊢
  by_cases h10 : X.length < 10
  · rw [if_pos h10] at h
    simp at h
  · rw [if_neg h10] at h ⊢
    dsimp only at h ⊢
    rcases hf : fit (splitData X y ts).1.1 (splitData X y ts).1.2 with e | fm <;>
      rw [hf] at h
    · simp at h
    · refine ⟨by simp, ?_, by simp, fm, by simp⟩
      rw [if_neg h10]
      simp

theorem c2_witness :
    (train constScore freshState sampleX sampleY (1/5) 7 false).1 = .error .saveFailed ∧
    (train constScore freshState sampleX sampleY (1/5) 7 false).2 =
      (train constScore freshState sampleX sampleY (1/5) 7 true).2 ∧
    (train constScore freshState sampleX sampleY (1/5) 7 false).2.is_trained = true ∧
    (∃ fm, (train constScore freshState sampleX sampleY (1/5) 7 false).2.model =
      some (.fitted fm)) :=
  c2_persistence_failure constScore freshState sampleX sampleY (1/5) 7
    (okOr (train constScore freshState sampleX sampleY (1/5) 7 true).1)
    (okOr_of_isOk _ (train_sample_fst_ok freshState))

theorem c2_counterexample :
    (train constScore freshState sampleX sampleY (1/5) 7 true).1.isOk = true ∧
    (train constScore freshState sampleX sampleY (1/5) 7 false).1 = .error .saveFailed ∧
    (train constScore freshState sampleX sampleY (1/5) 7 false).1.isOk = false :=
  ⟨train_sample_fst_ok freshState, train_sample_fst_saveFail freshState,
   by rw [train_sample_fst_saveFail]; rfl⟩

/-- C9 (amended): during a `train` call with at least 10 samples, the shared
state passes through an intermediate snapshot (after line 116, before the fit
completes) in which the model reference holds a fresh unfitted object; a
concurrent `predict` with a valid-length vector against that snapshot fails
with the library's not-fitted error rather than serving the old or the new
model. -/
theorem c9_shared_reference (st : NBState) (X : List (List ℚ)) (y : List String)
    (ts : ℚ) (now : Nat) (features : List Fl)
    (h10 : 10 ≤ X.length) (htr : st.is_trained = true) (hlen : features.length = 7) :
    midFitState st ∈ trainTrace st X y ts now ∧
    (midFitState st).model = some .unfitted ∧
    predictResult (midFitState st) features = .error .notFitted := by
  refine ⟨midFit_mem_trace st X y ts now h10, rfl, ?_⟩
  simp [predictResult, midFitState, htr, hlen]

theorem c9_witness :
    midFitState sampleTrainedState ∈
      trainTrace sampleTrainedState sampleX sampleY (1/5) 7 ∧
    (midFitState sampleTrainedState).model = some .unfitted ∧
    predictResult (midFitState sampleTrainedState) sampleFeatures =
      .error .notFitted :=
  c9_shared_reference sampleTrainedState sampleX sampleY (1/5) 7 sampleFeatures
    (by rw [sampleX_len]) rfl (by simp [sampleFeatures])

theorem c9_counterexample :
    midFitState sampleTrainedState ∈
      trainTrace sampleTrainedState sampleX sampleY (1/5) 7 ∧
    midFitState sampleTrainedState ≠ sampleTrainedState ∧
    midFitState sampleTrainedState ≠
      (train constScore sampleTrainedState sampleX sampleY (1/5) 7 true).2 ∧
    (predictResult sampleTrainedState sampleFeatures).isOk = true ∧
    predictResult (midFitState sampleTrainedState) sampleFeatures =
      .error .notFitted := by
  refine ⟨midFit_mem_trace _ _ _ _ _ (by rw [sampleX_len]), ?_, ?_, ?_, ?_⟩
  · intro heq
    have := congrArg NBState.model heq
    simp [midFitState, sampleTrainedState] at this
  · rw [train_sample_snd]
    intro heq
    have := congrArg NBState.model heq
    simp [midFitState, sampleTrainedState] at this
  · simp [predictResult, sampleTrainedState, sampleFeatures, allFinite,
      Fl.isFinite, Except.isOk, Except.toBool]
  · simp [predictResult, midFitState, sampleTrainedState, sampleFeatures]

/-- C1 (amended): after a successful fit, the stored variance table is
exactly `max(population variance of feature j among samples of class c, ε)`
with `ε = (global max per-feature population variance) × 1e-9` computed once
over the entire training partition; every stored variance is nonnegative, and
strictly positive whenever the global maximum per-feature population variance
is positive (an all-constant partition makes `ε = 0` and stores variance 0). -/
theorem c1_variance_floor (X : List (List ℚ)) (y : List String) (m : FittedModel)
    (h : fit X y = .ok m) :
    m.classes = presentClasses y ∧
    m.vars = (presentClasses y).map (fun c =>
      (List.range nFeatures).map (fun j =>
        max (popVar (column (classRows X y c) j)) (epsFit X))) ∧
    (∀ row ∈ m.vars, ∀ v ∈ row, 0 ≤ v) ∧
    (0 < globalMaxVar X → ∀ row ∈ m.vars, ∀ v ∈ row, 0 < v) := by
  obtain ⟨hc, _, _, hv⟩ := fit_ok_spec X y m h
  refine ⟨hc, hv, ?_, ?_⟩
  · intro row hrow v hv2
    rw [hv] at hrow
    obtain ⟨c, _, hceq⟩ := List.mem_map.mp hrow
    rw [← hceq] at hv2
    obtain ⟨j, _, hjeq⟩ := List.mem_map.mp hv2
    rw [← hjeq]
    exact le_trans (popVar_nonneg _) (le_max_left _ _)
  · intro heps row hrow v hv2
    rw [hv] at hrow
    obtain ⟨c, _, hceq⟩ := List.mem_map.mp hrow
    rw [← hceq] at hv2
    obtain ⟨j, _, hjeq⟩ := List.mem_map.mp hv2
    rw [← hjeq]
    have hepspos : 0 < epsFit X := by
      unfold epsFit
      positivity
    exact lt_of_lt_of_le hepspos (le_max_right _ _)

theorem c1_witness :
    sampleModel.classes = presentClasses sampleY ∧
    sampleModel.vars = (presentClasses sampleY).map (fun c =>
      (List.range nFeatures).map (fun j =>
        max (popVar (column (classRows sampleX sampleY c) j)) (epsFit sampleX))) ∧
    (∀ row ∈ sampleModel.vars, ∀ v ∈ row, 0 ≤ v) ∧
    (0 < globalMaxVar sampleX → ∀ row ∈ sampleModel.vars, ∀ v ∈ row, 0 < v) :=
  c1_variance_floor sampleX sampleY sampleModel fit_sample_eval

theorem c1_counterexample :
    fit sampleX sampleY = .ok sampleModel ∧
    ((sampleModel.vars.getD 0 []).getD 0 1) = 0 ∧
    ¬ (0 < ((sampleModel.vars.getD 0 []).getD 0 1)) :=
  ⟨fit_sample_eval, by simp [sampleModel], by simp [sampleModel]⟩

/-- C3: the class selected from a posterior vector is the one at the first
index attaining the maximum: when several classes tie for the maximal
posterior (here indices `i < j`), the selected index attains that posterior
and is least among all indices attaining it, and the fitted model's class
list is a sublist of the fixed ordering `CLASSES`, so the selected class is
the tied class that comes first in the fixed class ordering. -/
theorem c3_tie_break (X : List (List ℚ)) (y : List String) (m : FittedModel)
    (hm : fit X y = .ok m) (post : List ℚ)
    (hlen : post.length = m.classes.length)
    (i j : Nat) (hi : i < post.length) (hj : j < post.length) (hij : i < j)
    (htie : post.getD i 0 = post.getD j 0)
    (hmax : ∀ k, k < post.length → post.getD k 0 ≤ post.getD i 0) :
    m.classes.Sublist CLASSES ∧
    selectPrediction m.classes post = m.classes.getD (argmaxIdx post) "" ∧
    argmaxIdx post < post.length ∧
    post.getD (argmaxIdx post) 0 = post.getD i 0 ∧
    (∀ k, k < post.length → post.getD k 0 = post.getD i 0 → argmaxIdx post ≤ k) := by
  have hne : post ≠ [] :=
    List.ne_nil_of_length_pos (Nat.lt_of_le_of_lt (Nat.zero_le i) hi)
  have hmaxeq : maxOf post = post.getD i 0 := by
    refine le_antisymm ?_ ?_
    · obtain ⟨k, hk, hkeq⟩ := List.mem_iff_getElem.mp (maxOf_mem post hne)
      rw [← hkeq]
      have := hmax k hk
      rw [getD_of_lt post k 0 hk] at this
      simpa [List.get_eq_getElem] using this
    · have hmem : post.getD i 0 ∈ post := by
        rw [getD_of_lt post i 0 hi]
        exact post.get_mem _ hi
      exact le_maxOf post _ hmem
  have hc := (fit_ok_spec X y m hm).1
  refine ⟨?_, rfl, argmaxIdx_lt post hne, ?_, ?_⟩
  · rw [hc]
    exact presentClasses_sublist y
  · rw [argmaxIdx_attains post hne, hmaxeq]
  · intro k hk hkeq
    apply argmaxIdx_le_of_attains post k hk
    rw [hkeq, hmaxeq]

theorem c3_witness :
    sampleModel.classes.Sublist CLASSES ∧
    selectPrediction sampleModel.classes [0, 0] =
      sampleModel.classes.getD (argmaxIdx [0, 0]) "" ∧
    argmaxIdx [(0:ℚ), 0] < ([(0:ℚ), 0] : List ℚ).length ∧
    ([(0:ℚ), 0] : List ℚ).getD (argmaxIdx [0, 0]) 0 = ([(0:ℚ), 0] : List ℚ).getD 0 0 ∧
    (∀ k, k < ([(0:ℚ), 0] : List ℚ).length →
      ([(0:ℚ), 0] : List ℚ).getD k 0 = ([(0:ℚ), 0] : List ℚ).getD 0 0 →
      argmaxIdx [0, 0] ≤ k) :=
  c3_tie_break sampleX sampleY sampleModel fit_sample_eval [0, 0] rfl
    0 1 (by norm_num) (by norm_num) (by norm_num) rfl
    (fun k hk => by
      have hk2 : k < 2 := by simpa using hk
      interval_cases k <;> simp)

/-- C7: for every evaluation produced by a successful `train` call, the sum
of all confusion-matrix entries equals the number of test-partition samples,
and the reported accuracy equals trace(confusion matrix) divided by the sum
of its entries, exactly (in exact rational arithmetic). -/
theorem c7_confusion_invariants (score : ScoreFn) (st : NBState)
    (X : List (List ℚ)) (y : List String) (ts : ℚ) (now : Nat) (saveOk : Bool)
    (res : TrainResult)
    (hscore : ∀ fm x, (score fm x).length = fm.classes.length)
    (hy : ∀ l ∈ y, l ∈ CLASSES)
    (h : (train score st X y ts now saveOk).1 = .ok res) :
    cmSum res.confusion = res.test_samples ∧
    res.accuracy = (cmTrace res.confusion : ℚ) / (cmSum res.confusion : ℚ) := by
  unfold train at h
  by_cases h10 : X.length < 10
  · rw [if_pos h10] at h
    simp at h
  · rw [if_neg h10] at h
    dsimp only at h
    rcases hf : fit (splitData X y ts).1.1 (splitData X y ts).1.2 with e | fm <;>
      rw [hf] at h
    · simp at h
    · cases saveOk
      · simp at h
      · simp only [if_pos rfl] at h
        have h2 := Except.ok.inj h
        subst h2
        dsimp only
        have hlen1 : ((splitData X y ts).2.1.map
            (fun x => predictLabel score fm x)).length = (splitData X y ts).2.1.length :=
          List.length_map _ _
        have hlen2 : (splitData X y ts).2.1.length = (splitData X y ts).2.2.length :=
          split_test_lengths X y ts
        have hLlen : ((splitData X y ts).2.2.zip
            ((splitData X y ts).2.1.map (fun x => predictLabel score fm x))).length =
            (splitData X y ts).2.2.length := by
          rw [List.length_zip, hlen1, hlen2, Nat.min_self]
        have hmem : ∀ p ∈ (splitData X y ts).2.2.zip
            ((splitData X y ts).2.1.map (fun x => predictLabel score fm x)),
            p.1 ∈ CLASSES ∧ p.2 ∈ CLASSES := by
          intro p hp
          obtain ⟨p1, p2⟩ := p
          obtain ⟨hp1, hp2⟩ := List.of_mem_zip hp
          constructor
          · exact split_test_label_mem X y ts p1 hp1
          · obtain ⟨x, _, hxe⟩ := List.mem_map.mp hp2
            rw [← hxe]
            have hspec := fit_ok_spec (splitData X y ts).1.1 (splitData X y ts).1.2 fm hf
            have hcls := hspec.1
            have hpost : (score fm x).length = fm.classes.length := hscore fm x
            have hne : score fm x ≠ [] := by
              apply List.ne_nil_of_length_pos
              rw [hpost, hcls]
              omega
            have hmem2 : predictLabel score fm x ∈ fm.classes :=
              selectPrediction_mem fm.classes (score fm x) hpost hne
            rw [hcls] at hmem2
            exact presentClasses_subset _ _ hmem2
        constructor
        · show cmSum (confusionOf (splitData X y ts).2.2
            ((splitData X y ts).2.1.map (fun x => predictLabel score fm x))) =
            (splitData X y ts).2.1.length
          unfold confusionOf
          rw [cmSum_confusionPairs _ hmem, hLlen, hlen2]
        · show accuracyOf (splitData X y ts).2.2
            ((splitData X y ts).2.1.map (fun x => predictLabel score fm x)) = _
          unfold accuracyOf matchCount confusionOf
          rw [cmTrace_matchCount _ hmem, cmSum_confusionPairs _ hmem, hLlen]

theorem c7_witness :
    cmSum (okOr (train constScore freshState sampleX sampleY (1/5) 7 true).1).confusion =
      (okOr (train constScore freshState sampleX sampleY (1/5) 7 true).1).test_samples ∧
    (okOr (train constScore freshState sampleX sampleY (1/5) 7 true).1).accuracy =
      ((cmTrace (okOr (train constScore freshState sampleX sampleY (1/5) 7 true).1).confusion : ℚ) /
       (cmSum (okOr (train constScore freshState sampleX sampleY (1/5) 7 true).1).confusion : ℚ)) :=
  c7_confusion_invariants constScore freshState sampleX sampleY (1/5) 7 true
    (okOr (train constScore freshState sampleX sampleY (1/5) 7 true).1)
    (fun fm x => List.length_map _ _)
    (by decide)
    (okOr_of_isOk _ (train_sample_fst_ok freshState))

end KaroseriNB
